import Mathlib

set_option linter.unusedVariables false

/-! Shallow embedding of the parallel page-rendering pipeline of the
supernote-obsidian-plugin repository: the Render Worker message handler
(`src/myworker.worker.ts`), the `WorkerPool` chunking, dispatch and
aggregation logic, and the `ImageConverter` facade (`src/main.ts`).

The external decode/rasterize library (`new SupernoteX(buffer)` and
`toImage(sn, [pageNum])` from `supernote-typescript`) is out of scope of the
repository and is modelled by two oracles:
  * `parse : List Nat → Except String Nat` — parsing a byte buffer either
    throws (with a message) or yields a note whose observable content here is
    its page count (`sn.pages.length`);
  * `raster : Nat → Option String` — rasterizing one page either yields a
    data-URL string, or `none` when `toImage` throws for that page or returns
    no valid image (both are treated identically by the worker: the page is
    skipped).

Buffers are byte lists.  `ArrayBuffer` identity — needed for the
transfer-isolation claims about `originalBuffer.buffer.slice(0)` — is
modelled by an allocator counter that hands every clone a fresh id.
`Promise.all` is modelled deterministically: it rejects with the first
rejection in chunk order (in the source the rejection is the temporally
first one; when at most one chunk rejects the two coincide).
`navigator.hardwareConcurrency` is at least 1, so worker counts are
assumed positive throughout.
-/

/-- Response shape posted by the worker (`SupernoteWorkerResponse` in
`myworker.worker.ts`): an image list and an optional error string. -/
structure SupernoteWorkerResponse where
  images : List String
  error : Option String
deriving DecidableEq

/-- Per-page loop body of the worker: a page number contributes an image
exactly when it is in range (`pageNum >= 1 && pageNum <= sn.pages.length`;
out-of-range pages are skipped with a warning) and rasterization produces a
valid image (`toImage` throwing, or returning no valid image, both skip the
page). -/
def pageResults (raster : Nat → Option String) (nPages : Nat)
    (pageNumbers : List Nat) : List String :=
  pageNumbers.filterMap (fun p => if 1 ≤ p ∧ p ≤ nPages then raster p else none)

/-- The worker's `self.onmessage` handler from `myworker.worker.ts`, as the
function from the received message (buffer and page list) to the response it
posts.  `noteBuffer = none` models a missing buffer field. -/
def workerOnMessage (parse : List Nat → Except String Nat)
    (raster : Nat → Option String)
    (noteBuffer : Option (List Nat)) (pageNumbers : List Nat) :
    SupernoteWorkerResponse :=
  match noteBuffer with
  | none => ⟨[], some "Input buffer is too small or missing."⟩
  | some buf =>
    if buf.length < 100 then
      ⟨[], some "Input buffer is too small or missing."⟩
    else
      match parse buf with
      | Except.error msg =>
        ⟨[], some ("Failed to parse Supernote file: " ++ msg)⟩
      | Except.ok nPages =>
        if nPages = 0 then
          ⟨[], some "SupernoteX parsing failed: no pages found. File may be invalid."⟩
        else
          let results := pageResults raster nPages pageNumbers
          if 0 < results.length then ⟨results, none⟩
          else ⟨[], some "No images generated from any pages. File may be invalid or empty."⟩

/-- Resolution of one `processChunk` promise in `main.ts` from the worker's
response: `if (e.data.error) reject(new Error(e.data.error)) else
resolve(e.data.images)` — note JavaScript truthiness: an empty error string
would resolve. -/
def chunkResult : SupernoteWorkerResponse → Except String (List String)
  | ⟨images, none⟩ => Except.ok images
  | ⟨images, some s⟩ => if s = "" then Except.ok images else Except.error s

/-- Settlement of one dispatched chunk: either the worker posted a response
(`worker.onmessage`) or the worker context itself faulted
(`worker.onerror`), which rejects the chunk promise with the fault. -/
inductive ChunkOutcome where
  | response (r : SupernoteWorkerResponse)
  | fault (msg : String)
deriving DecidableEq

/-- Rejection/resolution of a chunk promise for either settlement. -/
def outcomeResult : ChunkOutcome → Except String (List String)
  | ChunkOutcome.response r => chunkResult r
  | ChunkOutcome.fault msg => Except.error msg

/-- Aggregation `(await Promise.all …).flat()`: resolves to the concatenation
of all chunk image lists when every chunk resolves, rejects (with the first
rejection in chunk order, see the module comment) otherwise. -/
def collectAll : List (Except String (List String)) → Except String (List String)
  | [] => Except.ok []
  | Except.error e :: _ => Except.error e
  | Except.ok xs :: rest =>
    match collectAll rest with
    | Except.error e => Except.error e
    | Except.ok ys => Except.ok (xs ++ ys)

/-- Chunking loop of `processPages`:
`for (let i = 0; i < all.length; i += chunkSize) chunks.push(all.slice(i, i + chunkSize))`.
The fuel argument (instantiated with the list length) only makes the
recursion structural; with `1 ≤ size` and enough fuel it is never
exhausted. -/
def chunksAux (size : Nat) : Nat → List Nat → List (List Nat)
  | _, [] => []
  | 0, _ :: _ => []
  | fuel + 1, x :: xs =>
    (x :: xs).take size :: chunksAux size fuel ((x :: xs).drop size)

/-- Chunk list built by `WorkerPool.processPages`: contiguous slices of size
`chunkSize = Math.ceil(allPageNumbers.length / workers.length)`. -/
def chunkPages (allPageNumbers : List Nat) (workerCount : Nat) : List (List Nat) :=
  chunksAux ((allPageNumbers.length + workerCount - 1) / workerCount)
    allPageNumbers.length allPageNumbers

/-- Chunk size used by `chunkPages` (`Math.ceil(len / workerCount)` for a
positive worker count). -/
def poolChunkSize (len workerCount : Nat) : Nat :=
  (len + workerCount - 1) / workerCount

/-- Pure result of `WorkerPool.processPages` (chunk, run every chunk through
the worker handler, aggregate): every chunk receives the same source bytes,
since each dispatch clones the caller's buffer. -/
def processPages (parse : List Nat → Except String Nat)
    (raster : Nat → Option String) (workerCount : Nat)
    (buf : List Nat) (allPageNumbers : List Nat) : Except String (List String) :=
  collectAll ((chunkPages allPageNumbers workerCount).map
    (fun c => chunkResult (workerOnMessage parse raster (some buf) c)))

/-- Generalization of `processPages` over arbitrary chunk settlements, to state
claims about worker execution faults (`worker.onerror`). -/
def processPagesWith (outcomes : List ChunkOutcome) : Except String (List String) :=
  collectAll (outcomes.map outcomeResult)

/-- One dispatched chunk message, as observed by `worker.postMessage(message,
[bufferCopy])` in `processChunk`: the target worker index, the page list, the
identity and contents of the `ArrayBuffer` placed in the message
(`originalBuffer.buffer.slice(0)`, a fresh clone), and the transfer list. -/
structure Dispatch where
  workerIndex : Nat
  pageNumbers : List Nat
  bufferId : Nat
  bufferData : List Nat
  transferList : List Nat
deriving DecidableEq

/-- Dispatch loop of `processPages`: chunk `i` goes to worker
`i % workers.length`; each `processChunk` call clones the source buffer
(`slice(0)` allocates a fresh `ArrayBuffer`, modelled by the counter) and
transfers exactly that clone.  Returns the dispatch list and the next fresh
id. -/
def dispatchChunks (workerCount : Nat) (bufData : List Nat) :
    Nat → Nat → List (List Nat) → List Dispatch × Nat
  | _, counter, [] => ([], counter)
  | idx, counter, c :: cs =>
    let d : Dispatch := ⟨idx % workerCount, c, counter, bufData, [counter]⟩
    let rest := dispatchChunks workerCount bufData (idx + 1) (counter + 1) cs
    (d :: rest.fst, rest.snd)

/-- All chunk dispatches issued by one `processPages` call, starting from a
fresh-id counter (the caller's own buffer has some id below the counter). -/
def processPagesDispatches (workerCount : Nat) (bufData : List Nat)
    (allPageNumbers : List Nat) (counter : Nat) : List Dispatch × Nat :=
  dispatchChunks workerCount bufData 0 counter (chunkPages allPageNumbers workerCount)

/-- Observable pool lifecycle events: worker construction (`new Worker()`),
a chunk dispatch (`worker.postMessage`), the fan-in await point
(`await Promise.all`), and worker destruction (`worker.terminate()`). -/
inductive PoolEvent where
  | createWorker (id : Nat)
  | dispatch (d : Dispatch)
  | awaitResults
  | terminateWorker (id : Nat)
deriving DecidableEq

/-- State of a `WorkerPool`: the ids of the workers it currently owns
(`this.workers`). -/
structure PoolState where
  workers : List Nat
deriving DecidableEq

/-- The `WorkerPool` constructor: eagerly constructs `maxWorkers` workers
(`Array(maxWorkers).fill(null).map(() => new Worker())`). -/
def WorkerPool.init (maxWorkers : Nat) : PoolState × List PoolEvent :=
  (⟨List.range maxWorkers⟩, (List.range maxWorkers).map PoolEvent.createWorker)

/-- Termination, `WorkerPool.terminate`: `this.workers.forEach(w => w.terminate());
this.workers = []`. -/
def WorkerPool.terminate (s : PoolState) : PoolState × List PoolEvent :=
  (⟨[]⟩, s.workers.map PoolEvent.terminateWorker)

/-- Event trace of one `processPages` call: the `chunks.map(…)` expression
synchronously issues every dispatch (the promise executor posts the message
when `processChunk` is called), and only then does `await Promise.all`
suspend. -/
def processPagesTrace (workerCount : Nat) (bufData : List Nat)
    (allPageNumbers : List Nat) (counter : Nat) : List PoolEvent :=
  ((processPagesDispatches workerCount bufData allPageNumbers counter).fst.map
      PoolEvent.dispatch) ++ [PoolEvent.awaitResults]

/-- Default page list of `convertToImages`:
`Array.from({length: note.pages.length}, (_, i) => i + 1)`. -/
def defaultPages (notePageCount : Nat) : List Nat :=
  (List.range notePageCount).map (fun i => i + 1)

/-- The `ImageConverter` constructor: builds a fresh `WorkerPool` sized
`maxWorkers`, creating all its workers immediately. -/
def ImageConverter.init (maxWorkers : Nat) : PoolState × List PoolEvent :=
  WorkerPool.init maxWorkers

/-- Conversion entry point `ImageConverter.convertToImages(note, pageNumbers?, originalBuffer?)`:
defaults the page list, throws when the buffer is absent, otherwise delegates
to `processPages`.  The pool state is threaded to record that the call never
alters the worker set. -/
def ImageConverter.convertToImages (parse : List Nat → Except String Nat)
    (raster : Nat → Option String) (s : PoolState) (notePageCount : Nat)
    (pageNumbers : Option (List Nat)) (originalBuffer : Option (List Nat)) :
    PoolState × Except String (List String) :=
  let pages := pageNumbers.getD (defaultPages notePageCount)
  match originalBuffer with
  | none => (s, Except.error "Original buffer is required for image conversion")
  | some buf => (s, processPages parse raster s.workers.length buf pages)

/-- Event trace produced by one `convertToImages` call itself: the missing
buffer check precedes any dispatch, so that failure path emits nothing. -/
def ImageConverter.convertTrace (workerCount : Nat) (notePageCount : Nat)
    (pageNumbers : Option (List Nat)) (originalBuffer : Option (List Nat))
    (counter : Nat) : List PoolEvent :=
  match originalBuffer with
  | none => []
  | some buf =>
    processPagesTrace workerCount buf (pageNumbers.getD (defaultPages notePageCount))
      counter

/-- Full event trace of a session `new ImageConverter(W)` followed by one
`convertToImages` call. -/
def ImageConverter.sessionTrace (maxWorkers : Nat) (notePageCount : Nat)
    (pageNumbers : Option (List Nat)) (originalBuffer : Option (List Nat))
    (counter : Nat) : List PoolEvent :=
  (ImageConverter.init maxWorkers).snd ++
    ImageConverter.convertTrace maxWorkers notePageCount pageNumbers
      originalBuffer counter

/-- Facade termination, `ImageConverter.terminate`: forwards to the pool's `terminate`. -/
def ImageConverter.terminate (s : PoolState) : PoolState × List PoolEvent :=
  WorkerPool.terminate s

/-! Helper lemmas about the chunking loop. -/

theorem chunksAux_nil (size fuel : Nat) : chunksAux size fuel [] = [] := by
  cases fuel <;> rfl

theorem chunksAux_flatten (size : Nat) (hs : 1 ≤ size) :
    ∀ (fuel : Nat) (l : List Nat), l.length ≤ fuel →
      (chunksAux size fuel l).flatten = l := by
  intro fuel
  induction fuel with
  | zero =>
    intro l hl
    cases l with
    | nil => rfl
    | cons x xs => simp at hl
  | succ n ih =>
    intro l hl
    cases l with
    | nil => rfl
    | cons x xs =>
      have hdrop : ((x :: xs).drop size).length ≤ n := by
        simp only [List.length_drop, List.length_cons]
        simp only [List.length_cons] at hl
        omega
      simp only [chunksAux, List.flatten_cons, ih _ hdrop]
      exact List.take_append_drop size (x :: xs)

theorem chunksAux_mem (size : Nat) (hs : 1 ≤ size) :
    ∀ (fuel : Nat) (l : List Nat), l.length ≤ fuel →
      ∀ c ∈ chunksAux size fuel l, c ≠ [] ∧ c.length ≤ size := by
  intro fuel
  induction fuel with
  | zero =>
    intro l hl c hc
    cases l with
    | nil => simp [chunksAux_nil] at hc
    | cons x xs => simp at hl
  | succ n ih =>
    intro l hl c hc
    cases l with
    | nil => simp [chunksAux_nil] at hc
    | cons x xs =>
      simp only [chunksAux, List.mem_cons] at hc
      rcases hc with hc | hc
      · subst hc
        constructor
        · obtain ⟨s, rfl⟩ := Nat.exists_eq_add_of_le hs
          simp [List.take_cons]
        · simp only [List.length_take, List.length_cons]
          omega
      · have hdrop : ((x :: xs).drop size).length ≤ n := by
          simp only [List.length_drop, List.length_cons]
          simp only [List.length_cons] at hl
          omega
        exact ih _ hdrop c hc

theorem chunksAux_length (size : Nat) (hs : 1 ≤ size) :
    ∀ (fuel : Nat) (l : List Nat), l.length ≤ fuel →
      (chunksAux size fuel l).length = (l.length + size - 1) / size := by
  intro fuel
  induction fuel with
  | zero =>
    intro l hl
    cases l with
    | nil =>
      simp only [chunksAux_nil, List.length_nil]
      rw [Nat.div_eq_of_lt (by omega)]
    | cons x xs => simp at hl
  | succ n ih =>
    intro l hl
    cases l with
    | nil =>
      simp only [chunksAux_nil, List.length_nil]
      rw [Nat.div_eq_of_lt (by omega)]
    | cons x xs =>
      have hlen : (x :: xs).length = xs.length + 1 := rfl
      have hdrop : ((x :: xs).drop size).length ≤ n := by
        simp only [List.length_drop, List.length_cons]
        simp only [List.length_cons] at hl
        omega
      simp only [chunksAux, List.length_cons, ih _ hdrop, List.length_drop]
      have hnum : xs.length + 1 + size - 1 = xs.length + size := by omega
      rw [hnum, Nat.add_div_right _ (by omega : 0 < size)]
      by_cases hcase : xs.length + 1 ≤ size
      · have h1 : xs.length + 1 - size + size - 1 = size - 1 := by omega
        rw [h1, Nat.div_eq_of_lt (by omega), Nat.div_eq_of_lt (by omega)]
      · have h1 : xs.length + 1 - size + size - 1 = xs.length := by omega
        rw [h1]

theorem chunksAux_eq_nil_iff (size fuel : Nat) (l : List Nat)
    (hl : l.length ≤ fuel) : chunksAux size fuel l = [] ↔ l = [] := by
  cases l with
  | nil => simp [chunksAux_nil]
  | cons x xs =>
    cases fuel with
    | zero => simp at hl
    | succ n => simp [chunksAux]

theorem chunksAux_get (size : Nat) (hs : 1 ≤ size) :
    ∀ (fuel : Nat) (l : List Nat), l.length ≤ fuel →
      ∀ i (hi : i < (chunksAux size fuel l).length)
        (hlast : i + 1 < (chunksAux size fuel l).length),
        ((chunksAux size fuel l).get ⟨i, hi⟩).length = size := by
  intro fuel
  induction fuel with
  | zero =>
    intro l hl i hi hlast
    cases l with
    | nil => simp [chunksAux_nil] at hi
    | cons x xs => simp at hl
  | succ n ih =>
    intro l hl i hi hlast
    cases l with
    | nil => simp [chunksAux_nil] at hi
    | cons x xs =>
      have hdrop : ((x :: xs).drop size).length ≤ n := by
        simp only [List.length_drop, List.length_cons]
        simp only [List.length_cons] at hl
        omega
      cases i with
      | zero =>
        simp only [chunksAux, List.length_cons] at hlast
        have hrest : chunksAux size n ((x :: xs).drop size) ≠ [] := by
          intro hnil
          rw [hnil] at hlast
          simp at hlast
        have hdropne : (x :: xs).drop size ≠ [] := by
          intro hnil
          rw [(chunksAux_eq_nil_iff size n _ hdrop).mpr hnil] at hrest
          exact hrest rfl
        have hlong : size < (x :: xs).length := by
          by_contra hle
          exact hdropne (List.drop_eq_nil_of_le (by omega))
        simp only [chunksAux, List.get]
        simp only [List.length_take]
        omega
      | succ j =>
        simp only [chunksAux, List.length_cons] at hi hlast
        simp only [chunksAux, List.get]
        exact ih _ hdrop j (by omega) (by omega)

/-! Helper lemmas about the worker handler and result aggregation. -/

theorem filterMap_eq_map_of_forall {g : Nat → Option String} {f : Nat → String} :
    ∀ (l : List Nat), (∀ p ∈ l, g p = some (f p)) → l.filterMap g = l.map f := by
  intro l
  induction l with
  | nil => intro h; rfl
  | cons x xs ih =>
    intro h
    have hx : g x = some (f x) := h x (List.mem_cons_self x xs)
    have hxs := ih (fun p hp => h p (List.mem_cons_of_mem x hp))
    simp [List.filterMap_cons, hx, hxs]

/-- Error path of the worker when the buffer is under 100 bytes. -/
theorem workerOnMessage_small_buffer (parse : List Nat → Except String Nat)
    (raster : Nat → Option String) (buf : List Nat) (c : List Nat)
    (hsmall : buf.length < 100) :
    workerOnMessage parse raster (some buf) c =
      ⟨[], some "Input buffer is too small or missing."⟩ := by
  unfold workerOnMessage
  simp [hsmall]

/-- Shape invariant of every posted worker response: either a non-empty image
list with no error, or a non-empty error message with an empty image list. -/
theorem workerOnMessage_shape (parse : List Nat → Except String Nat)
    (raster : Nat → Option String) (noteBuffer : Option (List Nat))
    (pageNumbers : List Nat) :
    ((workerOnMessage parse raster noteBuffer pageNumbers).error = none ∧
      (workerOnMessage parse raster noteBuffer pageNumbers).images ≠ []) ∨
    (∃ msg, (workerOnMessage parse raster noteBuffer pageNumbers).error = some msg ∧
      msg ≠ "" ∧ (workerOnMessage parse raster noteBuffer pageNumbers).images = []) := by
  cases noteBuffer with
  | none => exact Or.inr ⟨_, rfl, by decide, rfl⟩
  | some buf =>
    by_cases hsmall : buf.length < 100
    · rw [workerOnMessage_small_buffer parse raster buf pageNumbers hsmall]
      exact Or.inr ⟨_, rfl, by decide, rfl⟩
    · cases hp : parse buf with
      | error msg =>
        have heq : workerOnMessage parse raster (some buf) pageNumbers =
            ⟨[], some ("Failed to parse Supernote file: " ++ msg)⟩ := by
          unfold workerOnMessage
          simp [hsmall, hp]
        rw [heq]
        refine Or.inr ⟨_, rfl, ?_, rfl⟩
        intro habs
        have hlen := congrArg String.length habs
        rw [String.length_append] at hlen
        have h33 : ("Failed to parse Supernote file: ").length = 32 := by decide
        have h0 : ("" : String).length = 0 := rfl
        omega
      | ok nPages =>
        by_cases hz : nPages = 0
        · have heq : workerOnMessage parse raster (some buf) pageNumbers =
              ⟨[], some "SupernoteX parsing failed: no pages found. File may be invalid."⟩ := by
            unfold workerOnMessage
            simp [hsmall, hp, hz]
          rw [heq]
          exact Or.inr ⟨_, rfl, by decide, rfl⟩
        · by_cases hres : 0 < (pageResults raster nPages pageNumbers).length
          · have heq : workerOnMessage parse raster (some buf) pageNumbers =
                ⟨pageResults raster nPages pageNumbers, none⟩ := by
              unfold workerOnMessage
              simp [hsmall, hp, hz, hres]
            rw [heq]
            refine Or.inl ⟨rfl, ?_⟩
            intro habs
            have himg : pageResults raster nPages pageNumbers = [] := habs
            rw [himg] at hres
            simp at hres
          · have heq : workerOnMessage parse raster (some buf) pageNumbers =
                ⟨[], some "No images generated from any pages. File may be invalid or empty."⟩ := by
              unfold workerOnMessage
              simp [hsmall, hp, hz, hres]
            rw [heq]
            exact Or.inr ⟨_, rfl, by decide, rfl⟩

/-- Success path of the worker for a chunk in which every page is in range
and rasterizes: it posts exactly the chunk's images, in chunk order, with no
error. -/
theorem workerOnMessage_all_ok (parse : List Nat → Except String Nat)
    (raster : Nat → Option String) (f : Nat → String) (buf : List Nat)
    (c : List Nat) (nPages : Nat)
    (hbuf : 100 ≤ buf.length) (hparse : parse buf = Except.ok nPages)
    (hc : c ≠ [])
    (hpages : ∀ p ∈ c, (1 ≤ p ∧ p ≤ nPages) ∧ raster p = some (f p)) :
    workerOnMessage parse raster (some buf) c = ⟨c.map f, none⟩ := by
  have hz : nPages ≠ 0 := by
    obtain ⟨p, hp⟩ := List.exists_mem_of_ne_nil c hc
    have := (hpages p hp).1
    omega
  have hres : pageResults raster nPages c = c.map f := by
    unfold pageResults
    refine filterMap_eq_map_of_forall c ?_
    intro p hp
    have h1 := (hpages p hp).1
    have h2 := (hpages p hp).2
    simp [h1, h2]
  unfold workerOnMessage
  simp only [Nat.not_lt.mpr hbuf, if_false, hparse, hz, if_false, hres]
  have hlen : 0 < (c.map f).length := by
    rw [List.length_map]
    exact List.length_pos.mpr hc
  simp only [hlen, if_true]

/-- Error path of the worker when no page produced an image: every page of
the chunk either is out of range or fails to rasterize. -/
theorem workerOnMessage_all_fail (parse : List Nat → Except String Nat)
    (raster : Nat → Option String) (buf : List Nat) (c : List Nat)
    (nPages : Nat)
    (hbuf : 100 ≤ buf.length) (hparse : parse buf = Except.ok nPages)
    (hz : nPages ≠ 0)
    (hfail : ∀ p ∈ c, raster p = none) :
    workerOnMessage parse raster (some buf) c =
      ⟨[], some "No images generated from any pages. File may be invalid or empty."⟩ := by
  have hres : pageResults raster nPages c = [] := by
    unfold pageResults
    rw [List.filterMap_eq_nil_iff]
    intro p hp
    by_cases hv : 1 ≤ p ∧ p ≤ nPages
    · simp [hv, hfail p hp]
    · simp [hv]
  unfold workerOnMessage
  simp [Nat.not_lt.mpr hbuf, hparse, hz, hres]

theorem chunkResult_ok (images : List String) :
    chunkResult ⟨images, none⟩ = Except.ok images := rfl

theorem chunkResult_error (images : List String) (msg : String) (h : msg ≠ "") :
    chunkResult ⟨images, some msg⟩ = Except.error msg := by
  simp [chunkResult, h]

theorem collectAll_map_ok (xss : List (List String)) :
    collectAll (xss.map Except.ok) = Except.ok xss.flatten := by
  induction xss with
  | nil => rfl
  | cons xs rest ih => simp [collectAll, ih]

theorem collectAll_error_of_mem (rs : List (Except String (List String)))
    (e : String) (h : Except.error e ∈ rs) :
    ∃ msg, collectAll rs = Except.error msg := by
  induction rs with
  | nil => simp at h
  | cons r rest ih =>
    cases r with
    | error e0 => exact ⟨e0, rfl⟩
    | ok xs =>
      simp only [List.mem_cons] at h
      rcases h with h | h
      · exact absurd h (by simp)
      · obtain ⟨msg, hmsg⟩ := ih h
        refine ⟨msg, ?_⟩
        simp [collectAll, hmsg]

theorem collectAll_first_error (e : String) :
    ∀ (rs : List (Except String (List String))) (k : Nat)
      (hk : k < rs.length),
      rs.get ⟨k, hk⟩ = Except.error e →
      (∀ j (hj : j < rs.length), j < k → ∃ xs, rs.get ⟨j, hj⟩ = Except.ok xs) →
      collectAll rs = Except.error e := by
  intro rs
  induction rs with
  | nil => intro k hk; simp at hk
  | cons r rest ih =>
    intro k hk hget hprev
    cases k with
    | zero =>
      simp only [List.get] at hget
      rw [hget]
      rfl
    | succ k0 =>
      have hr : ∃ xs, r = Except.ok xs := by
        have := hprev 0 (by simp) (by omega)
        simpa using this
      obtain ⟨xs, rfl⟩ := hr
      have hrec : collectAll rest = Except.error e := by
        refine ih k0 (by simpa using hk) (by simpa using hget) ?_
        intro j hj hjk
        have := hprev (j + 1) (by simpa using hj) (by omega)
        simpa using this
      simp [collectAll, hrec]

/-- Non-emptiness of the parse-failure message posted by the worker. -/
theorem parse_error_message_ne_empty (m : String) :
    "Failed to parse Supernote file: " ++ m ≠ "" := by
  intro habs
  have hlen := congrArg String.length habs
  rw [String.length_append] at hlen
  have h32 : ("Failed to parse Supernote file: ").length = 32 := by decide
  have h0 : ("" : String).length = 0 := rfl
  omega

/-- Whenever every page of the request fails to rasterize, the worker posts
an error (one of its four descriptive messages), never a success. -/
theorem workerOnMessage_error_of_all_none (parse : List Nat → Except String Nat)
    (raster : Nat → Option String) (buf c : List Nat)
    (hfail : ∀ p ∈ c, raster p = none) :
    ∃ msg, workerOnMessage parse raster (some buf) c = ⟨[], some msg⟩ ∧ msg ≠ "" := by
  by_cases hsmall : buf.length < 100
  · exact ⟨_, workerOnMessage_small_buffer parse raster buf c hsmall, by decide⟩
  · cases hp : parse buf with
    | error m =>
      refine ⟨"Failed to parse Supernote file: " ++ m, ?_, parse_error_message_ne_empty m⟩
      unfold workerOnMessage
      simp [hsmall, hp]
    | ok n =>
      by_cases hz : n = 0
      · refine ⟨"SupernoteX parsing failed: no pages found. File may be invalid.",
          ?_, by decide⟩
        unfold workerOnMessage
        simp [hsmall, hp, hz]
      · exact ⟨_, workerOnMessage_all_fail parse raster buf c n
          (Nat.le_of_not_lt hsmall) hp hz hfail, by decide⟩

/-- A non-empty page list over a positive worker pool forms at least one
chunk. -/
theorem chunkPages_ne_nil (pages : List Nat) (workerCount : Nat)
    (hne : pages ≠ []) : chunkPages pages workerCount ≠ [] := by
  unfold chunkPages
  rw [Ne, chunksAux_eq_nil_iff _ _ _ le_rfl]
  exact hne

/-! Helper lemmas about the dispatch loop. -/

theorem dispatchChunks_length (workerCount : Nat) (bufData : List Nat) :
    ∀ (cs : List (List Nat)) (idx counter : Nat),
      (dispatchChunks workerCount bufData idx counter cs).fst.length = cs.length := by
  intro cs
  induction cs with
  | nil => intro idx counter; rfl
  | cons c cs ih =>
    intro idx counter
    simp [dispatchChunks, ih]

theorem dispatchChunks_get (workerCount : Nat) (bufData : List Nat) :
    ∀ (cs : List (List Nat)) (idx counter k : Nat) (hk : k < cs.length)
      (hk2 : k < (dispatchChunks workerCount bufData idx counter cs).fst.length),
      (dispatchChunks workerCount bufData idx counter cs).fst.get ⟨k, hk2⟩ =
        ⟨(idx + k) % workerCount, cs.get ⟨k, hk⟩, counter + k, bufData,
          [counter + k]⟩ := by
  intro cs
  induction cs with
  | nil =>
    intro idx counter k hk
    simp at hk
  | cons c cs ih =>
    intro idx counter k hk hk2
    cases k with
    | zero => simp [dispatchChunks, List.get]
    | succ j =>
      have hj : j < cs.length := by simpa using hk
      have hj2 : j < (dispatchChunks workerCount bufData (idx + 1) (counter + 1) cs).fst.length := by
        rw [dispatchChunks_length]
        exact hj
      have hind := ih (idx + 1) (counter + 1) j hj hj2
      simp only [dispatchChunks, List.get] at hind ⊢
      rw [hind]
      have h1 : idx + 1 + j = idx + (j + 1) := by omega
      have h2 : counter + 1 + j = counter + (j + 1) := by omega
      rw [h1, h2]

/-! The claims. -/

/-- C1: for every non-empty page-number list and pool of at least one
worker, `processPages` partitions the list into contiguous chunks of size
`ceil(len/workerCount)` (every chunk but possibly the last has exactly that
length, the last is non-empty and no longer), preserving input order within
and across chunks (their concatenation in chunk order is the input list);
and when every requested page succeeds, `convertToImages` resolves with the
images in exactly the input page-number order. -/
theorem claim_C1_order_preservation
    (parse : List Nat → Except String Nat) (raster : Nat → Option String)
    (f : Nat → String) (workerCount nPages : Nat) (buf pages : List Nat)
    (hW : 1 ≤ workerCount) (hne : pages ≠ [])
    (hbuf : 100 ≤ buf.length) (hparse : parse buf = Except.ok nPages)
    (hvalid : ∀ p ∈ pages, 1 ≤ p ∧ p ≤ nPages)
    (hsucc : ∀ p ∈ pages, raster p = some (f p)) :
    (chunkPages pages workerCount).flatten = pages ∧
    (∀ c ∈ chunkPages pages workerCount,
        c ≠ [] ∧ c.length ≤ poolChunkSize pages.length workerCount) ∧
    (∀ i (hi : i < (chunkPages pages workerCount).length),
        i + 1 < (chunkPages pages workerCount).length →
        ((chunkPages pages workerCount).get ⟨i, hi⟩).length =
          poolChunkSize pages.length workerCount) ∧
    processPages parse raster workerCount buf pages = Except.ok (pages.map f) ∧
    (ImageConverter.convertToImages parse raster
        (ImageConverter.init workerCount).fst nPages (some pages) (some buf)).snd =
      Except.ok (pages.map f) := by
  have hlenpos : 0 < pages.length := List.length_pos.mpr hne
  have hsize : 1 ≤ poolChunkSize pages.length workerCount := by
    unfold poolChunkSize
    rw [Nat.le_div_iff_mul_le (by omega)]
    omega
  have hck : chunkPages pages workerCount =
      chunksAux (poolChunkSize pages.length workerCount) pages.length pages := rfl
  have hflat : (chunkPages pages workerCount).flatten = pages := by
    rw [hck]
    exact chunksAux_flatten _ hsize pages.length pages le_rfl
  have hmem : ∀ c ∈ chunkPages pages workerCount,
      c ≠ [] ∧ c.length ≤ poolChunkSize pages.length workerCount := by
    rw [hck]
    exact chunksAux_mem _ hsize pages.length pages le_rfl
  refine ⟨hflat, hmem, ?_, ?_, ?_⟩
  · intro i hi hlast
    exact chunksAux_get _ hsize pages.length pages le_rfl i hi hlast
  · have hchunk : ∀ c ∈ chunkPages pages workerCount,
        chunkResult (workerOnMessage parse raster (some buf) c) =
          Except.ok (c.map f) := by
      intro c hc
      have hsub : ∀ p ∈ c, p ∈ pages := by
        intro p hp
        rw [← hflat]
        exact List.mem_flatten.mpr ⟨c, hc, hp⟩
      rw [workerOnMessage_all_ok parse raster f buf c nPages hbuf hparse
        (hmem c hc).1 (fun p hp => ⟨hvalid p (hsub p hp), hsucc p (hsub p hp)⟩)]
      exact chunkResult_ok _
    unfold processPages
    rw [List.map_congr_left hchunk]
    have hcomp : (chunkPages pages workerCount).map
          (fun c => (Except.ok (c.map f) : Except String (List String))) =
        ((chunkPages pages workerCount).map (List.map f)).map
          (Except.ok : List String → Except String (List String)) := by
      rw [List.map_map]
      rfl
    rw [hcomp, collectAll_map_ok, ← List.map_flatten, hflat]
  · have hWlen : ((ImageConverter.init workerCount).fst).workers.length = workerCount := by
      simp [ImageConverter.init, WorkerPool.init]
    unfold ImageConverter.convertToImages
    simp only [Option.getD_some, hWlen]
    have hchunk : ∀ c ∈ chunkPages pages workerCount,
        chunkResult (workerOnMessage parse raster (some buf) c) =
          Except.ok (c.map f) := by
      intro c hc
      have hsub : ∀ p ∈ c, p ∈ pages := by
        intro p hp
        rw [← hflat]
        exact List.mem_flatten.mpr ⟨c, hc, hp⟩
      rw [workerOnMessage_all_ok parse raster f buf c nPages hbuf hparse
        (hmem c hc).1 (fun p hp => ⟨hvalid p (hsub p hp), hsucc p (hsub p hp)⟩)]
      exact chunkResult_ok _
    unfold processPages
    rw [List.map_congr_left hchunk]
    have hcomp : (chunkPages pages workerCount).map
          (fun c => (Except.ok (c.map f) : Except String (List String))) =
        ((chunkPages pages workerCount).map (List.map f)).map
          (Except.ok : List String → Except String (List String)) := by
      rw [List.map_map]
      rfl
    rw [hcomp, collectAll_map_ok, ← List.map_flatten, hflat]

/-- Witness for C1 at a concrete input: 4 pages over 2 workers, every page
rasterizes; the result is the pages' images in input order. -/
theorem claim_C1_witness :
    processPages (fun _ => Except.ok 4) (fun p => some (Nat.repr p)) 2
      (List.replicate 100 0) [1, 2, 3, 4] =
      Except.ok ["1", "2", "3", "4"] := by
  have h := claim_C1_order_preservation (fun _ => Except.ok 4)
    (fun p => some (Nat.repr p)) (fun p => Nat.repr p) 2 4
    (List.replicate 100 0) [1, 2, 3, 4]
    (by decide) (by decide) (by decide) rfl
    (by decide) (by intro p hp; rfl)
  have h4 := h.2.2.2.1
  rw [h4]
  rfl

/-- Dropping a page whose rasterization yields nothing does not change the
collected results. -/
theorem filterMap_filter_ne {g : Nat → Option String} (pk : Nat)
    (hg : g pk = none) :
    ∀ l : List Nat, (l.filter (fun p => decide (p ≠ pk))).filterMap g =
      l.filterMap g := by
  intro l
  induction l with
  | nil => rfl
  | cons x xs ih =>
    simp only [ne_eq, decide_not] at ih
    by_cases hx : x = pk
    · subst hx
      simp [List.filter_cons, List.filterMap_cons, hg, ih]
    · cases hgx : g x with
      | none => simp [List.filter_cons, List.filterMap_cons, hx, hgx, ih]
      | some b => simp [List.filter_cons, List.filterMap_cons, hx, hgx, ih]

/-- C2: for a chunk in which rasterizing page `pk` throws but at least one
other page succeeds, the worker signals no error and returns exactly the
images of the other successful pages of the chunk, in input order (the
failed page contributes nothing: filtering it out of the request leaves the
result unchanged). -/
theorem claim_C2_partial_tolerance
    (parse : List Nat → Except String Nat) (raster : Nat → Option String)
    (buf c : List Nat) (nPages pk q : Nat) (s : String)
    (hbuf : 100 ≤ buf.length) (hparse : parse buf = Except.ok nPages)
    (hpk : pk ∈ c) (hfail : raster pk = none)
    (hq : q ∈ c) (hqval : 1 ≤ q ∧ q ≤ nPages) (hqsucc : raster q = some s) :
    (workerOnMessage parse raster (some buf) c).error = none ∧
    (workerOnMessage parse raster (some buf) c).images =
      (c.filter (fun p => decide (p ≠ pk))).filterMap
        (fun p => if 1 ≤ p ∧ p ≤ nPages then raster p else none) := by
  have hz : nPages ≠ 0 := by omega
  have hsmem : s ∈ pageResults raster nPages c := by
    unfold pageResults
    rw [List.mem_filterMap]
    exact ⟨q, hq, by simp [hqval, hqsucc]⟩
  have hpos : 0 < (pageResults raster nPages c).length := by
    rw [List.length_pos]
    intro habs
    rw [habs] at hsmem
    simp at hsmem
  have heq : workerOnMessage parse raster (some buf) c =
      ⟨pageResults raster nPages c, none⟩ := by
    unfold workerOnMessage
    simp [Nat.not_lt.mpr hbuf, hparse, hz, hpos]
  rw [heq]
  refine ⟨rfl, ?_⟩
  show pageResults raster nPages c = _
  unfold pageResults
  rw [filterMap_filter_ne pk (by simp [hfail]) c]

/-- Witness for C2: pages `[1, 2, 3]` with page 2 throwing; the response has
no error and carries the images of pages 1 and 3 in order. -/
theorem claim_C2_witness :
    (workerOnMessage (fun _ => Except.ok 3)
        (fun p => if p = 2 then none else some (Nat.repr p))
        (some (List.replicate 100 0)) [1, 2, 3]).error = none ∧
    (workerOnMessage (fun _ => Except.ok 3)
        (fun p => if p = 2 then none else some (Nat.repr p))
        (some (List.replicate 100 0)) [1, 2, 3]).images =
      (([1, 2, 3] : List Nat).filter (fun p => decide (p ≠ 2))).filterMap
        (fun p => if 1 ≤ p ∧ p ≤ 3 then
          (if p = 2 then none else some (Nat.repr p)) else none) :=
  claim_C2_partial_tolerance (fun _ => Except.ok 3)
    (fun p => if p = 2 then none else some (Nat.repr p))
    (List.replicate 100 0) [1, 2, 3] 3 2 1 "1"
    (by decide) rfl (by decide) (by decide) (by decide) (by decide) (by decide)

/-- C3: if every page of some chunk fails to rasterize, that chunk's worker
posts an error (never an empty success), and the whole `processPages` call
rejects; when the earlier chunks all resolve, the rejection carries exactly
that worker's error message.  Independently, a worker execution fault on any
chunk also rejects the whole call. -/
theorem claim_C3_all_fail_escalation
    (parse : List Nat → Except String Nat) (raster : Nat → Option String)
    (workerCount : Nat) (buf pages : List Nat) (k : Nat)
    (hk : k < (chunkPages pages workerCount).length)
    (hfail : ∀ p ∈ (chunkPages pages workerCount).get ⟨k, hk⟩, raster p = none) :
    (workerOnMessage parse raster (some buf)
        ((chunkPages pages workerCount).get ⟨k, hk⟩)).error ≠ none ∧
    (∃ e, processPages parse raster workerCount buf pages = Except.error e) ∧
    ((∀ j (hj : j < (chunkPages pages workerCount).length), j < k →
        (workerOnMessage parse raster (some buf)
          ((chunkPages pages workerCount).get ⟨j, hj⟩)).error = none) →
      ∃ msg, (workerOnMessage parse raster (some buf)
          ((chunkPages pages workerCount).get ⟨k, hk⟩)).error = some msg ∧
        processPages parse raster workerCount buf pages = Except.error msg) ∧
    (∀ (outcomes : List ChunkOutcome) (j : Nat) (hj : j < outcomes.length)
        (msg : String), outcomes.get ⟨j, hj⟩ = ChunkOutcome.fault msg →
      ∃ e, processPagesWith outcomes = Except.error e) := by
  obtain ⟨msg, hresp, hne⟩ := workerOnMessage_error_of_all_none parse raster buf
    ((chunkPages pages workerCount).get ⟨k, hk⟩) hfail
  have hcr : chunkResult (workerOnMessage parse raster (some buf)
      ((chunkPages pages workerCount).get ⟨k, hk⟩)) = Except.error msg := by
    rw [hresp]
    exact chunkResult_error [] msg hne
  have hk2 : k < ((chunkPages pages workerCount).map
      (fun c => chunkResult (workerOnMessage parse raster (some buf) c))).length := by
    rw [List.length_map]
    exact hk
  have hget : ((chunkPages pages workerCount).map
      (fun c => chunkResult (workerOnMessage parse raster (some buf) c))).get
        ⟨k, hk2⟩ = Except.error msg := by
    rw [List.get_map]
    exact hcr
  refine ⟨?_, ?_, ?_, ?_⟩
  · rw [hresp]
    simp
  · refine collectAll_error_of_mem _ msg ?_
    rw [← hget]
    exact List.get_mem _ k hk2
  · intro hprev
    refine ⟨msg, by rw [hresp], ?_⟩
    unfold processPages
    refine collectAll_first_error msg _ k hk2 hget ?_
    intro j hj hjk
    have hj0 : j < (chunkPages pages workerCount).length := by
      rw [List.length_map] at hj
      exact hj
    have herrj := hprev j hj0 hjk
    refine ⟨(workerOnMessage parse raster (some buf)
      ((chunkPages pages workerCount).get ⟨j, hj0⟩)).images, ?_⟩
    rw [List.get_map]
    rcases hr : workerOnMessage parse raster (some buf)
        ((chunkPages pages workerCount).get ⟨j, hj0⟩) with ⟨imgs, err⟩
    rw [hr] at herrj
    simp only at herrj
    subst herrj
    rfl
  · intro outcomes j hj msg0 hfault
    refine collectAll_error_of_mem _ msg0 ?_
    have : outcomeResult (outcomes.get ⟨j, hj⟩) = Except.error msg0 := by
      rw [hfault]
      rfl
    rw [← this]
    have hj2 : j < (outcomes.map outcomeResult).length := by
      rw [List.length_map]
      exact hj
    have hm : (outcomes.map outcomeResult).get ⟨j, hj2⟩ =
        outcomeResult (outcomes.get ⟨j, hj⟩) := List.get_map _
    rw [← hm]
    exact List.get_mem _ j hj2

/-- Witness for C3: two pages in one chunk, both failing to rasterize; the
call rejects with the worker's no-images error, and a faulting chunk also
rejects. -/
theorem claim_C3_witness :
    ((workerOnMessage (fun _ => Except.ok 2) (fun _ => none)
        (some (List.replicate 100 0))
        ((chunkPages [1, 2] 1).get ⟨0, by decide⟩)).error ≠ none) ∧
    (∃ e, processPages (fun _ => Except.ok 2) (fun _ => none) 1
        (List.replicate 100 0) [1, 2] = Except.error e) := by
  have h := claim_C3_all_fail_escalation (fun _ => Except.ok 2) (fun _ => none)
    1 (List.replicate 100 0) [1, 2] 0 (by decide) (by intro p hp; rfl)
  exact ⟨h.1, h.2.1⟩

/-- C4: within one `processPages` call, any two distinct chunk dispatches
carry distinct buffer instances; every dispatch carries (and transfers
exactly) its own fresh clone of the source bytes, and the caller's original
buffer instance is never placed in a message or a transfer list. -/
theorem claim_C4_transfer_isolation
    (workerCount : Nat) (bufData pages : List Nat) (counter origId : Nat)
    (horig : origId < counter) :
    (∀ i j (hi : i < (processPagesDispatches workerCount bufData pages counter).fst.length)
        (hj : j < (processPagesDispatches workerCount bufData pages counter).fst.length),
      i ≠ j →
      ((processPagesDispatches workerCount bufData pages counter).fst.get ⟨i, hi⟩).bufferId ≠
        ((processPagesDispatches workerCount bufData pages counter).fst.get ⟨j, hj⟩).bufferId) ∧
    (∀ d ∈ (processPagesDispatches workerCount bufData pages counter).fst,
      d.bufferId ≠ origId ∧ origId ∉ d.transferList ∧
        d.transferList = [d.bufferId] ∧ d.bufferData = bufData) := by
  have hlen : (processPagesDispatches workerCount bufData pages counter).fst.length =
      (chunkPages pages workerCount).length :=
    dispatchChunks_length workerCount bufData (chunkPages pages workerCount) 0 counter
  have hget : ∀ k (hk2 : k < (processPagesDispatches workerCount bufData pages counter).fst.length),
      ∃ hk : k < (chunkPages pages workerCount).length,
        (processPagesDispatches workerCount bufData pages counter).fst.get ⟨k, hk2⟩ =
          ⟨(0 + k) % workerCount, (chunkPages pages workerCount).get ⟨k, hk⟩,
            counter + k, bufData, [counter + k]⟩ := by
    intro k hk2
    have hk : k < (chunkPages pages workerCount).length := by
      rw [← hlen]
      exact hk2
    exact ⟨hk, dispatchChunks_get workerCount bufData (chunkPages pages workerCount)
      0 counter k hk hk2⟩
  constructor
  · intro i j hi hj hne
    obtain ⟨hci, heqi⟩ := hget i hi
    obtain ⟨hcj, heqj⟩ := hget j hj
    rw [heqi, heqj]
    simp only
    omega
  · intro d hd
    rw [List.mem_iff_get] at hd
    obtain ⟨⟨k, hk2⟩, hdk⟩ := hd
    obtain ⟨hk, heq⟩ := hget k hk2
    rw [← hdk, heq]
    refine ⟨by simp only; omega, ?_, rfl, rfl⟩
    simp only [List.mem_singleton]
    omega

/-- Witness for C4 at a concrete input: two dispatches with ids 5 and 6,
original buffer id 0. -/
theorem claim_C4_witness :
    ((processPagesDispatches 2 [9] [1, 2, 3, 4] 5).fst.get
        ⟨0, by decide⟩).bufferId ≠
      ((processPagesDispatches 2 [9] [1, 2, 3, 4] 5).fst.get
        ⟨1, by decide⟩).bufferId ∧
    (∀ d ∈ (processPagesDispatches 2 [9] [1, 2, 3, 4] 5).fst,
      d.bufferId ≠ 0 ∧ (0 : Nat) ∉ d.transferList ∧
        d.transferList = [d.bufferId] ∧ d.bufferData = [9]) := by
  have h := claim_C4_transfer_isolation 2 [9] [1, 2, 3, 4] 5 0 (by decide)
  exact ⟨h.1 0 1 (by decide) (by decide) (by decide), h.2⟩

/-- C5 as stated is false on the code: with 4 pages over 3 workers
(`N > W`), `chunkSize = ceil(4/3) = 2` yields only 2 chunks, dispatched to
workers 0 and 1 — not exactly `W = 3` workers. -/
theorem claim_C5_counterexample :
    ((processPagesDispatches 3 [9] [1, 2, 3, 4] 0).fst.map
        Dispatch.workerIndex) = [0, 1] ∧
    ¬ (((processPagesDispatches 3 [9] [1, 2, 3, 4] 0).fst.map
        Dispatch.workerIndex).dedup.length = 3) :=
  ⟨by decide, by decide⟩

/-- C5 amended: for `N` pages over `W` workers with `N > W ≥ 1`, the number
of chunks is `ceil(N / ceil(N/W))`, which is at most `W` (not always exactly
`W`); chunk `k` is dispatched to worker `k mod W`, which here equals `k`, so
chunks go to pairwise distinct workers; and the call's event trace is all
chunk dispatches followed by the single fan-in await — every dispatch is
issued before any result is awaited. -/
theorem claim_C5_parallel_dispatch_amended
    (workerCount : Nat) (bufData pages : List Nat) (counter : Nat)
    (hW : 1 ≤ workerCount) (hN : workerCount < pages.length) :
    (processPagesDispatches workerCount bufData pages counter).fst.length =
      (pages.length + poolChunkSize pages.length workerCount - 1) /
        poolChunkSize pages.length workerCount ∧
    (processPagesDispatches workerCount bufData pages counter).fst.length ≤
      workerCount ∧
    (∀ k (hk2 : k < (processPagesDispatches workerCount bufData pages counter).fst.length),
      ((processPagesDispatches workerCount bufData pages counter).fst.get
          ⟨k, hk2⟩).workerIndex = k % workerCount ∧
      ((processPagesDispatches workerCount bufData pages counter).fst.get
          ⟨k, hk2⟩).workerIndex = k) ∧
    (∀ i j (hi : i < (processPagesDispatches workerCount bufData pages counter).fst.length)
        (hj : j < (processPagesDispatches workerCount bufData pages counter).fst.length),
      i ≠ j →
      ((processPagesDispatches workerCount bufData pages counter).fst.get
          ⟨i, hi⟩).workerIndex ≠
        ((processPagesDispatches workerCount bufData pages counter).fst.get
          ⟨j, hj⟩).workerIndex) ∧
    processPagesTrace workerCount bufData pages counter =
      ((processPagesDispatches workerCount bufData pages counter).fst.map
        PoolEvent.dispatch) ++ [PoolEvent.awaitResults] := by
  have hsize1 : 1 ≤ poolChunkSize pages.length workerCount := by
    unfold poolChunkSize
    rw [Nat.le_div_iff_mul_le (by omega)]
    omega
  have hclen : (chunkPages pages workerCount).length =
      (pages.length + poolChunkSize pages.length workerCount - 1) /
        poolChunkSize pages.length workerCount :=
    chunksAux_length _ hsize1 pages.length pages le_rfl
  have hdlen : (processPagesDispatches workerCount bufData pages counter).fst.length =
      (chunkPages pages workerCount).length :=
    dispatchChunks_length workerCount bufData (chunkPages pages workerCount) 0 counter
  have hNle : pages.length ≤ workerCount * poolChunkSize pages.length workerCount := by
    have hdm : workerCount * ((pages.length + workerCount - 1) / workerCount) +
        (pages.length + workerCount - 1) % workerCount =
          pages.length + workerCount - 1 := Nat.div_add_mod _ _
    have hmod : (pages.length + workerCount - 1) % workerCount < workerCount :=
      Nat.mod_lt _ (by omega)
    have hsdef : poolChunkSize pages.length workerCount =
        (pages.length + workerCount - 1) / workerCount := rfl
    rw [hsdef]
    generalize hM : workerCount * ((pages.length + workerCount - 1) / workerCount) = M
      at hdm ⊢
    generalize hR : (pages.length + workerCount - 1) % workerCount = R at hdm hmod
    omega
  have hle : (processPagesDispatches workerCount bufData pages counter).fst.length ≤
      workerCount := by
    rw [hdlen, hclen]
    rw [Nat.div_le_iff_le_mul_add_pred (by omega)]
    rw [Nat.mul_comm] at hNle
    generalize hM2 : poolChunkSize pages.length workerCount * workerCount = M2
      at hNle ⊢
    omega
  have hget : ∀ k (hk2 : k < (processPagesDispatches workerCount bufData pages counter).fst.length),
      ((processPagesDispatches workerCount bufData pages counter).fst.get
        ⟨k, hk2⟩).workerIndex = k % workerCount := by
    intro k hk2
    have hk : k < (chunkPages pages workerCount).length := by
      rw [← hdlen]
      exact hk2
    have heq : (processPagesDispatches workerCount bufData pages counter).fst.get
        ⟨k, hk2⟩ = ⟨(0 + k) % workerCount, (chunkPages pages workerCount).get ⟨k, hk⟩,
          counter + k, bufData, [counter + k]⟩ :=
      dispatchChunks_get workerCount bufData (chunkPages pages workerCount)
        0 counter k hk hk2
    rw [heq]
    simp
  have hgetk : ∀ k (hk2 : k < (processPagesDispatches workerCount bufData pages counter).fst.length),
      ((processPagesDispatches workerCount bufData pages counter).fst.get
        ⟨k, hk2⟩).workerIndex = k := by
    intro k hk2
    rw [hget k hk2]
    exact Nat.mod_eq_of_lt (by omega)
  refine ⟨by rw [hdlen, hclen], hle, fun k hk2 => ⟨hget k hk2, hgetk k hk2⟩, ?_, rfl⟩
  intro i j hi hj hne
  rw [hgetk i hi, hgetk j hj]
  exact hne

/-- Witness for the amended C5: 3 pages over 2 workers give 2 chunks on
workers 0 and 1, all dispatched before the await. -/
theorem claim_C5_witness :
    (processPagesDispatches 2 [9] [1, 2, 3] 0).fst.length = 2 ∧
    (processPagesDispatches 2 [9] [1, 2, 3] 0).fst.length ≤ 2 ∧
    processPagesTrace 2 [9] [1, 2, 3] 0 =
      ((processPagesDispatches 2 [9] [1, 2, 3] 0).fst.map PoolEvent.dispatch) ++
        [PoolEvent.awaitResults] := by
  have h := claim_C5_parallel_dispatch_amended 2 [9] [1, 2, 3] 0
    (by decide) (by decide)
  refine ⟨?_, ?_, h.2.2.2.2⟩
  · rw [h.1]
    decide
  · exact h.2.1

/-- C6 as stated is false on the code: with a one-worker converter and a
missing source buffer, `convertToImages` does reject with the descriptive
error, but the session's event trace already contains a worker-creation
event — the `ImageConverter` constructor builds the `WorkerPool` (and all
its workers) eagerly, before the call can reject. -/
theorem claim_C6_counterexample :
    (ImageConverter.convertToImages (fun _ => Except.error "bad")
        (fun _ => none) (ImageConverter.init 1).fst 3 none none).snd =
      Except.error "Original buffer is required for image conversion" ∧
    ImageConverter.sessionTrace 1 3 none none 0 = [PoolEvent.createWorker 0] ∧
    PoolEvent.createWorker 0 ∈ ImageConverter.sessionTrace 1 3 none none 0 :=
  ⟨rfl, by decide, by decide⟩

/-- C6 amended: calling `convertToImages` without a source buffer rejects
immediately with a descriptive error; the call itself dispatches no chunk,
creates no worker and leaves the pool untouched — but the pool's workers
already exist, created when the `ImageConverter` was constructed. -/
theorem claim_C6_buffer_precondition_amended
    (parse : List Nat → Except String Nat) (raster : Nat → Option String)
    (s : PoolState) (workerCount notePageCount counter : Nat)
    (pageNumbers : Option (List Nat)) :
    (ImageConverter.convertToImages parse raster s notePageCount
        pageNumbers none).snd =
      Except.error "Original buffer is required for image conversion" ∧
    (ImageConverter.convertToImages parse raster s notePageCount
        pageNumbers none).fst = s ∧
    ImageConverter.convertTrace workerCount notePageCount pageNumbers none
      counter = [] ∧
    ImageConverter.sessionTrace workerCount notePageCount pageNumbers none
      counter = (ImageConverter.init workerCount).snd := by
  refine ⟨rfl, rfl, rfl, ?_⟩
  simp [ImageConverter.sessionTrace, ImageConverter.convertTrace]

/-- C7: after `convertToImages` throws on a missing buffer, `terminate`
still destroys every worker of the pool, each exactly once; the pool is then
empty, and a second `terminate` changes nothing and emits no event
(idempotence, no double-free). -/
theorem claim_C7_cleanup_guarantee
    (parse : List Nat → Except String Nat) (raster : Nat → Option String)
    (workerCount notePageCount : Nat) (pageNumbers : Option (List Nat)) :
    (ImageConverter.convertToImages parse raster
        (ImageConverter.init workerCount).fst notePageCount pageNumbers none).snd =
      Except.error "Original buffer is required for image conversion" ∧
    (ImageConverter.terminate (ImageConverter.convertToImages parse raster
        (ImageConverter.init workerCount).fst notePageCount pageNumbers none).fst).snd =
      (List.range workerCount).map PoolEvent.terminateWorker ∧
    ((List.range workerCount).map PoolEvent.terminateWorker).Nodup ∧
    (ImageConverter.terminate (ImageConverter.convertToImages parse raster
        (ImageConverter.init workerCount).fst notePageCount pageNumbers none).fst).fst =
      ⟨[]⟩ ∧
    (∀ s : PoolState, ImageConverter.terminate (ImageConverter.terminate s).fst =
      (⟨[]⟩, [])) := by
  refine ⟨rfl, rfl, ?_, rfl, fun s => rfl⟩
  refine List.Nodup.map ?_ (List.nodup_range workerCount)
  intro a b hab
  injection hab

/-- Parse-failure path of the worker: a buffer that passes the size check
but fails to parse (`new SupernoteX(buffer)` throws, e.g. a wrong
signature) yields the descriptive parse error before any page is
processed. -/
theorem workerOnMessage_parse_error (parse : List Nat → Except String Nat)
    (raster : Nat → Option String) (buf c : List Nat) (m : String)
    (hbig : ¬ buf.length < 100) (hp : parse buf = Except.error m) :
    workerOnMessage parse raster (some buf) c =
      ⟨[], some ("Failed to parse Supernote file: " ++ m)⟩ := by
  unfold workerOnMessage
  simp [hbig, hp]

/-- When every chunk's worker response is the same non-empty error, the
aggregate call rejects with exactly that error. -/
theorem processPages_error_of_const (parse : List Nat → Except String Nat)
    (raster : Nat → Option String) (workerCount : Nat) (buf pages : List Nat)
    (msg : String) (hne : pages ≠ []) (hmsg : msg ≠ "")
    (hw : ∀ c, workerOnMessage parse raster (some buf) c = ⟨[], some msg⟩) :
    processPages parse raster workerCount buf pages = Except.error msg := by
  obtain ⟨c, cs, hcs⟩ : ∃ c cs, chunkPages pages workerCount = c :: cs := by
    cases h : chunkPages pages workerCount with
    | nil => exact absurd h (chunkPages_ne_nil pages workerCount hne)
    | cons c cs => exact ⟨c, cs, rfl⟩
  unfold processPages
  rw [hcs]
  simp only [List.map_cons, hw c]
  rw [chunkResult_error [] _ hmsg]
  rfl

/-- C8: for every malformed source buffer — under 100 bytes (e.g. a 10-byte
garbage buffer), or at least 100 bytes but unparseable (`new SupernoteX`
throws) — the worker fails every chunk with the corresponding descriptive
error (too-small, respectively parse failure), producing no image; its
response does not depend on the rasterizer at all (no page is processed);
and the whole conversion rejects with exactly that error. -/
theorem claim_C8_malformed_buffer
    (parse : List Nat → Except String Nat) (raster : Nat → Option String)
    (workerCount : Nat) (buf pages : List Nat)
    (hmal : buf.length < 100 ∨ ∃ m, parse buf = Except.error m)
    (hne : pages ≠ []) :
    ∃ msg, msg ≠ "" ∧
      (buf.length < 100 → msg = "Input buffer is too small or missing.") ∧
      (∀ m, parse buf = Except.error m → ¬ buf.length < 100 →
        msg = "Failed to parse Supernote file: " ++ m) ∧
      (∀ c, workerOnMessage parse raster (some buf) c = ⟨[], some msg⟩) ∧
      (∀ (raster2 : Nat → Option String) (c : List Nat),
        workerOnMessage parse raster (some buf) c =
          workerOnMessage parse raster2 (some buf) c) ∧
      processPages parse raster workerCount buf pages = Except.error msg := by
  by_cases hsmall : buf.length < 100
  · have hw : ∀ c, workerOnMessage parse raster (some buf) c =
        ⟨[], some "Input buffer is too small or missing."⟩ :=
      fun c => workerOnMessage_small_buffer parse raster buf c hsmall
    refine ⟨"Input buffer is too small or missing.", by decide,
      fun _ => rfl, ?_, hw, ?_, ?_⟩
    · intro m hp hbig
      exact absurd hsmall hbig
    · intro raster2 c
      rw [hw c, workerOnMessage_small_buffer parse raster2 buf c hsmall]
    · exact processPages_error_of_const parse raster workerCount buf pages _
        hne (by decide) hw
  · obtain ⟨m, hp⟩ := hmal.resolve_left hsmall
    have hw : ∀ c, workerOnMessage parse raster (some buf) c =
        ⟨[], some ("Failed to parse Supernote file: " ++ m)⟩ :=
      fun c => workerOnMessage_parse_error parse raster buf c m hsmall hp
    refine ⟨"Failed to parse Supernote file: " ++ m,
      parse_error_message_ne_empty m, ?_, ?_, hw, ?_, ?_⟩
    · intro h
      exact absurd h hsmall
    · intro m2 hp2 _
      rw [hp] at hp2
      injection hp2 with h
      rw [h]
    · intro raster2 c
      rw [hw c, workerOnMessage_parse_error parse raster2 buf c m hsmall hp]
    · exact processPages_error_of_const parse raster workerCount buf pages _
        hne (parse_error_message_ne_empty m) hw

/-- Witness for C8 exercising both malformedness cases: a 10-byte buffer
makes the conversion reject with the too-small error, and a 100-byte buffer
whose parse throws makes it reject with the parse error. -/
theorem claim_C8_witness :
    processPages (fun _ => Except.ok 5) (fun p => some (Nat.repr p)) 2
      (List.replicate 10 0) [1, 2, 3] =
      Except.error "Input buffer is too small or missing." ∧
    processPages (fun _ => Except.error "bad signature")
      (fun p => some (Nat.repr p)) 2 (List.replicate 100 0) [1, 2, 3] =
      Except.error ("Failed to parse Supernote file: " ++ "bad signature") := by
  constructor
  · obtain ⟨msg, hne0, hid, hid2, hworker, hind, hpp⟩ :=
      claim_C8_malformed_buffer (fun _ => Except.ok 5)
        (fun p => some (Nat.repr p)) 2 (List.replicate 10 0) [1, 2, 3]
        (Or.inl (by decide)) (by decide)
    rw [hid (by decide)] at hpp
    exact hpp
  · obtain ⟨msg, hne0, hid, hid2, hworker, hind, hpp⟩ :=
      claim_C8_malformed_buffer (fun _ => Except.error "bad signature")
        (fun p => some (Nat.repr p)) 2 (List.replicate 100 0) [1, 2, 3]
        (Or.inr ⟨"bad signature", rfl⟩) (by decide)
    rw [hid2 "bad signature" rfl (by decide)] at hpp
    exact hpp

/-- C9: every worker response has exactly one of the two shapes — a
non-empty image list with no error, or a (non-empty) error message with an
empty image list; in particular the worker never posts a success with an
empty image list. -/
theorem claim_C9_response_shape
    (parse : List Nat → Except String Nat) (raster : Nat → Option String)
    (noteBuffer : Option (List Nat)) (pageNumbers : List Nat) :
    (((workerOnMessage parse raster noteBuffer pageNumbers).error = none ∧
        (workerOnMessage parse raster noteBuffer pageNumbers).images ≠ []) ∨
      (∃ msg, (workerOnMessage parse raster noteBuffer pageNumbers).error = some msg ∧
        msg ≠ "" ∧ (workerOnMessage parse raster noteBuffer pageNumbers).images = [])) ∧
    ¬ ((workerOnMessage parse raster noteBuffer pageNumbers).error = none ∧
        (workerOnMessage parse raster noteBuffer pageNumbers).images = []) := by
  have h := workerOnMessage_shape parse raster noteBuffer pageNumbers
  refine ⟨h, ?_⟩
  rintro ⟨he, hi⟩
  rcases h with ⟨he2, hi2⟩ | ⟨msg, hm, hne, hempty⟩
  · exact hi2 hi
  · rw [he] at hm
    exact Option.noConfusion hm

/-- C10: for a pool with at least one worker, an empty page-number list
forms zero chunks, dispatches nothing, and the call resolves with an empty
image list. -/
theorem claim_C10_empty_pages
    (parse : List Nat → Except String Nat) (raster : Nat → Option String)
    (workerCount : Nat) (buf : List Nat) (counter : Nat)
    (hW : 1 ≤ workerCount) :
    processPages parse raster workerCount buf [] = Except.ok [] ∧
    chunkPages [] workerCount = [] ∧
    (processPagesDispatches workerCount buf [] counter).fst = [] ∧
    processPagesTrace workerCount buf [] counter = [PoolEvent.awaitResults] :=
  ⟨rfl, rfl, rfl, rfl⟩

/-- Witness for C10: a 4-worker pool with no requested pages resolves to an
empty list with no dispatch. -/
theorem claim_C10_witness :
    processPages (fun _ => Except.ok 1) (fun _ => none) 4 [0] [] =
      Except.ok [] ∧
    (processPagesDispatches 4 [0] [] 0).fst = [] := by
  have h := claim_C10_empty_pages (fun _ => Except.ok 1) (fun _ => none) 4 [0] 0
    (by decide)
  exact ⟨h.1, h.2.2.1⟩
